import Mathlib

/-!
Verification of the meme-generator MCP server's template-matching core.

The TypeScript source is shallowly embedded: pure functions become Lean
functions over `String`, `List` and `ℚ` (JS numbers that only ever hold
small exact values — integer and half-integer scores — are modelled by
rationals); the external NLP backend (the `compromise` library) and the
network fetch are modelled as explicit oracle parameters; the static
template catalog / metadata tables are parameters of type association
list, matching JS object insertion-order semantics.
-/

namespace Meme

/-! ### String helpers mirroring JS primitives -/
/-- ASCII lower-casing of one character (the catalog data and queries the
source handles are ASCII; JS `toLowerCase` agrees there). -/
def lowerChar (c : Char) : Char :=
  if 'A' ≤ c ∧ c ≤ 'Z' then Char.ofNat (c.toNat + 32) else c

/-- JS `s.toLowerCase()`. -/
def jsToLower (s : String) : String := String.mk (s.toList.map lowerChar)

/-- Is `w` a contiguous sublist of the second argument? -/
def infixOfB (w : List Char) : List Char → Bool
  | [] => w.isEmpty
  | c :: rest => w.isPrefixOf (c :: rest) || infixOfB w rest

/-- JS `a.includes(b)`: `b` occurs as a contiguous substring of `a`. -/
def includesStr (a b : String) : Bool :=
  infixOfB b.toList a.toList

/-- JS word character (`\w`): letter, digit or underscore. -/
def isWordChar (c : Char) : Bool :=
  c.isAlpha || c.isDigit || c = '_'

/-- Does the pattern `w` match at the current position (previous character
`prev`) with a `\b` boundary on both sides?  All alternation branches used
by the source start and end with word characters, so the boundary test
reduces to: the previous character (if any) and the character following the
match (if any) are non-word. -/
def startsWithBoundary (prev : Option Char) (w l : List Char) : Bool :=
  (match prev with
   | none => true
   | some c => !isWordChar c) &&
  w.isPrefixOf l &&
  (match l.drop w.length with
   | [] => true
   | c :: _ => !isWordChar c)

/-- Scan `l` for a `\b w \b` match, tracking the previous character. -/
def hasWordAux (w : List Char) : Option Char → List Char → Bool
  | prev, [] => startsWithBoundary prev w []
  | prev, c :: rest =>
    startsWithBoundary prev w (c :: rest) || hasWordAux w (some c) rest

/-- JS `/\b(a1|a2|...)\b/.test(s)` for alternatives made of word
characters (possibly with internal spaces/apostrophes). -/
def testWordRegex (s : String) (alts : List String) : Bool :=
  alts.any (fun a => hasWordAux a.toList none s.toList)

/-- JS `/^(a1|a2|...)\b/.test(s)`: anchored at the start, boundary after. -/
def testStartWordRegex (s : String) (alts : List String) : Bool :=
  alts.any (fun a => startsWithBoundary none a.toList s.toList)

/-- JS `/^(a1|a2|...)/.test(s)`: plain anchored prefix alternation. -/
def testStartsWith (s : String) (alts : List String) : Bool :=
  alts.any (fun a => a.toList.isPrefixOf s.toList)

/-- Replace every occurrence of the character `c` by the string `r`
(the source only ever applies `String.replace` with single-character
patterns, so this models each `.replace(/c/g, r)` step exactly). -/
def replaceChar (c : Char) (r : List Char) : List Char → List Char
  | [] => []
  | x :: xs => (if x = c then r else [x]) ++ replaceChar c r xs

/-- JS `str.split(/\s+/).filter(w => w.length > 0)`: whitespace-separated
words, empties dropped. -/
def splitWsGo : List Char → List Char → List String
  | [], acc => if acc.isEmpty then [] else [String.mk acc.reverse]
  | c :: cs, acc =>
    if c.isWhitespace then
      if acc.isEmpty then splitWsGo cs []
      else String.mk acc.reverse :: splitWsGo cs []
    else splitWsGo cs (c :: acc)

def splitWs (s : String) : List String := splitWsGo s.toList []

/-- JS `Math.round` on an exact rational: round half toward +∞. -/
def jsRound (q : ℚ) : ℤ := ⌊q + 1/2⌋

/-! ### `src/utils/memegen.ts` -/
/-- `encodeMemeText` from `src/utils/memegen.ts`: blank or whitespace-only
text becomes `_`; otherwise escape literal `_` and `-` first, then the
special characters `? % # / \`, and finally spaces.  The guard
`!text || text.trim() === ''` holds exactly when every character of the
text is whitespace. -/
def encodeMemeText (text : String) : String :=
  if text.toList.all (·.isWhitespace) then "_"
  else
    String.mk <|
      replaceChar ' ' ['_'] <|
      replaceChar '\\' ['~', 'b'] <|
      replaceChar '/' ['~', 's'] <|
      replaceChar '#' ['~', 'h'] <|
      replaceChar '%' ['~', 'p'] <|
      replaceChar '?' ['~', 'q'] <|
      replaceChar '-' ['-', '-'] <|
      replaceChar '_' ['_', '_'] text.toList

/-- `buildMemeUrl` from `src/utils/memegen.ts`; the base URL (taken from
the environment by `getMemegenBaseUrl`) is a parameter. -/
def buildMemeUrl (baseUrl template : String) (textLines : List String) : String :=
  baseUrl ++ "/" ++ template ++ "/" ++
    String.intercalate "/" (textLines.map encodeMemeText) ++ ".png"

/-! ### `src/templates/search.ts` (keyword index and search)

The static `templateMetadata` table is not part of the scoring logic; every
definition is parameterized by a metadata table `meta`, an association list
from template id to metadata, mirroring JS object insertion order.  Queries
are embedded after normalization: `searchByKeyword` lower-cases and trims
the query and splits it on whitespace, so the embedding takes the resulting
list of (non-empty, lower-case) terms directly. -/
structure Metadata where
  usage : String
  category : String
  keywords : List String
  popularity : Option String := none
  similar : List String := []
deriving DecidableEq, Repr

abbrev MetaTable := List (String × Metadata)

/-- The matched-templates accumulator: template id to matched keywords. -/
abbrev Matched := List (String × List String)

/-- Association-list lookup (first entry wins, as for a JS object). -/
def alookup {α : Type} (l : List (String × α)) (k : String) : Option α :=
  (l.find? (fun p => p.1 = k)).map (·.2)

/-- One step of `buildKeywordIndex`: add `tid` to the bucket of keyword
`kw`, creating the bucket at the end of the index if absent; buckets are
JS `Set`s so an id already present is not added again. -/
def addToIndex (idx : List (String × List String)) (kw tid : String) :
    List (String × List String) :=
  if (idx.find? (fun p => p.1 = kw)).isSome then
    idx.map (fun p => if p.1 = kw then (p.1, if tid ∈ p.2 then p.2 else p.2 ++ [tid]) else p)
  else idx ++ [(kw, [tid])]

/-- `buildKeywordIndex` from `search.ts`: for every template (in table
order), for every keyword, lower-case it and add the template id to that
keyword's bucket. -/
def buildKeywordIndex (meta : MetaTable) : List (String × List String) :=
  meta.foldl
    (fun idx p => p.2.keywords.foldl (fun idx kw => addToIndex idx (jsToLower kw) p.1) idx)
    []

/-- The `matchedTemplates` map of `searchByKeyword`: template id to the
list of keywords via which it matched, in insertion order.  `dedup` is
true on the fuzzy path (`!matchedTemplates.get(id).includes(keyword)`) and
false on the exact path (which pushes unconditionally). -/
def pushMatch (m : List (String × List String)) (tid kw : String) (dedup : Bool) :
    List (String × List String) :=
  if (m.find? (fun p => p.1 = tid)).isSome then
    m.map (fun p =>
      if p.1 = tid then (p.1, if dedup && kw ∈ p.2 then p.2 else p.2 ++ [kw]) else p)
  else m ++ [(tid, [kw])]

/-- Processing of one query term inside `searchByKeyword`'s matching loop:
first the exact bucket lookup (pushing the term itself for each template of
the bucket), then the fuzzy pass over every index entry, which fires only
when the indexed keyword strictly contains the term
(`keyword.includes(term) && keyword !== term`). -/
def processTermExact (idx : List (String × List String))
    (m : Matched) (term : String) : Matched :=
  match alookup idx term with
  | some tids => tids.foldl (fun acc tid => pushMatch acc tid term false) m
  | none => m

/-- One step of the fuzzy pass: if the indexed keyword `p.1` strictly
contains the term, record it for every template of its bucket. -/
def fuzzyStep (term : String) (acc : Matched) (p : String × List String) : Matched :=
  if includesStr p.1 term && p.1 ≠ term then
    p.2.foldl (fun a tid => pushMatch a tid p.1 true) acc
  else acc

def processTerm (idx : List (String × List String))
    (m : Matched) (term : String) : Matched :=
  idx.foldl (fuzzyStep term) (processTermExact idx m term)

/-- The full matching loop of `searchByKeyword` over all query terms. -/
def collectMatches (idx : List (String × List String)) (terms : List String) :
    List (String × List String) :=
  terms.foldl (processTerm idx) []

/-- `calculateRelevance` from `search.ts`: twice the number of matched
keywords that equal some query term, plus the number of matched keywords
in a substring relation (either direction) with some query term, plus half
a point per query term contained in the lower-cased usage text, divided by
(number of keywords of the template + 1); 0 if the template has no
metadata. -/
def calculateRelevance (meta : MetaTable) (templateId : String)
    (matchedKeywords queryTerms : List String) : ℚ :=
  match alookup meta templateId with
  | none => 0
  | some md =>
    let exactMatches := matchedKeywords.filter
      (fun kw => queryTerms.any (fun term => kw = term))
    let partialMatches := matchedKeywords.filter
      (fun kw => queryTerms.any (fun term => includesStr kw term || includesStr term kw))
    let usageHits := queryTerms.filter (fun term => includesStr (jsToLower md.usage) term)
    ((exactMatches.length * 2 + partialMatches.length : ℚ) + usageHits.length / 2) /
      (md.keywords.length + 1)

structure SearchResult where
  templateId : String
  relevance : ℚ
deriving DecidableEq, Repr

/-- Descending relevance, the comparator `(a, b) => b.relevance - a.relevance`. -/
def searchGe (a b : SearchResult) : Prop := b.relevance ≤ a.relevance

instance : DecidableRel searchGe := fun a b =>
  inferInstanceAs (Decidable (b.relevance ≤ a.relevance))

/-- `searchByKeyword` from `search.ts`, taking the normalized query terms:
collect matches, score each matched template, keep strictly positive
scores, sort descending by relevance. -/
def searchByKeyword (meta : MetaTable) (terms : List String) : List SearchResult :=
  let matched := collectMatches (buildKeywordIndex meta) terms
  let results := matched.filterMap (fun p =>
    let r := calculateRelevance meta p.1 p.2 terms
    if 0 < r then some ⟨p.1, r⟩ else none)
  results.insertionSort searchGe

/-- The relevance formula exactly as the specification words it: 2 points
per matched keyword that is an exact match to some query term, 1 point per
matched keyword that is a partial (substring, either direction) match to
some query term, 0.5 points per query term literally contained in the
template's usage description, all divided by (number of keywords + 1). -/
def specRelevanceFormula (md : Metadata) (matchedKeywords queryTerms : List String) : ℚ :=
  (2 * (matchedKeywords.filter (fun kw => queryTerms.any (fun t => kw = t))).length
    + 1 * (matchedKeywords.filter
        (fun kw => queryTerms.any (fun t => includesStr kw t || includesStr t kw))).length
    + (1/2) * (queryTerms.filter (fun t => includesStr (jsToLower md.usage) t)).length) /
    (md.keywords.length + 1)

/-- The score `searchByKeyword` assigns to a template: the relevance
computed from its matched-keyword list if the matching loop recorded the
template, 0 if the template was not matched at all (it then does not
appear in the result list). -/
def assignedRelevance (meta : MetaTable) (terms : List String) (tid : String) : ℚ :=
  match alookup (collectMatches (buildKeywordIndex meta) terms) tid with
  | none => 0
  | some kws => calculateRelevance meta tid kws terms

/-! #### Lemmas about the matching loop -/
/-- Buckets only ever grow: whatever `o` holds persists, possibly with
keywords appended at the end. -/
def BucketExtends (o n : Option (List String)) : Prop :=
  ∀ l, o = some l → ∃ ext, n = some (l ++ ext)

/-- The matching loop has recorded keyword `kw` for template `tid`. -/
def HasMatch (m : Matched) (tid kw : String) : Prop :=
  ∃ kws, alookup m tid = some kws ∧ kw ∈ kws

/-! ### `src/tools/extract-quotes.ts` (quote extractor)

The `compromise` NLP backend is an external collaborator; its observable
outputs used by `extract-quotes.ts` (sentence segmentation, verb and
adjective counts, proper-noun/question/negation detection) are modelled as
an oracle parameter `Nlp`.  Every other step of the extractor — lexical
regex tests, scoring arithmetic, filtering, n-grams, deduplication,
sorting — is embedded from the source. -/
/-- JS `list.join(sep)`. -/
def joinSep (sep : String) : List String → String
  | [] => ""
  | [x] => x
  | x :: xs => x ++ sep ++ joinSep sep xs

/-- Oracle for the `compromise` NLP calls made by `scoreQuote` and
`extractKeyQuotes`. -/
structure Nlp where
  sentences : String → List String
  verbCount : String → ℕ
  adjectiveCount : String → ℕ
  properNounFound : String → Bool
  questionFound : String → Bool
  hasNegative : String → Bool

inductive QuotePosition
  | beginning
  | middle
  | ending
deriving DecidableEq, Repr

structure ExtractedQuote where
  text : String
  score : ℚ
  reason : String
  position : QuotePosition
deriving DecidableEq, Repr

/-- The fixed emotional-vocabulary list of `scoreQuote`. -/
def emotionalWords : List String :=
  ["love", "hate", "amazing", "terrible", "shocking", "surprising", "ironic",
   "ridiculous", "absurd", "perfect"]

/-- `scoreQuote` from `extract-quotes.ts`: additive bonuses for length,
position, punctuation, contrast, direct statements, quotes, emotional and
meme-friendly vocabulary, imperative openers, and the NLP-derived verb /
adjective / proper-noun / question / negation signals.  Returns the score
and the accumulated reason list. -/
def scoreQuote (nlp : Nlp) (sentence : String) (position total maxLength : ℕ) :
    ℚ × List String :=
  let lower := jsToLower sentence
  let st0 : ℚ × List String :=
    if sentence.length ≤ maxLength then
      if sentence.length ≤ 50 then (5, ["Very concise"])
      else if sentence.length ≤ 80 then (3, ["Concise"])
      else (1, ["Acceptable length"])
    else (-2, [])
  let relativePosition : ℚ := (position : ℚ) / (total : ℚ)
  let st1 :=
    if position = 0 then (st0.1 + 2, st0.2 ++ ["Opening hook"])
    else if position = total - 1 then (st0.1 + 3, st0.2 ++ ["Closing punchline"])
    else if relativePosition < 1/5 then (st0.1 + 1, st0.2 ++ ["Near beginning"])
    else if relativePosition > 4/5 then (st0.1 + 2, st0.2 ++ ["Near end"])
    else st0
  let st2 := if includesStr sentence "?" then (st1.1 + 2, st1.2 ++ ["Question"]) else st1
  let st3 := if includesStr sentence "!" then (st2.1 + 1, st2.2 ++ ["Exclamation"]) else st2
  let st4 :=
    if testWordRegex lower ["but", "however", "yet", "although", "while", "whereas", "instead"]
    then (st3.1 + 2, st3.2 ++ ["Contains contrast"]) else st3
  let st5 :=
    if testStartsWith lower ["i ", "you ", "we ", "they ", "this ", "that "]
    then (st4.1 + 1, st4.2 ++ ["Direct statement"]) else st4
  let st6 :=
    if includesStr sentence "\"" || includesStr sentence "\x27"
    then (st5.1 + 1, st5.2 ++ ["Contains quote"]) else st5
  let st7 :=
    if emotionalWords.any (fun word => includesStr lower word)
    then (st6.1 + 2, st6.2 ++ ["Emotional language"]) else st6
  let st8 :=
    if testWordRegex lower ["literally", "actually", "basically", "obviously", "clearly"]
    then (st7.1 + 1, st7.2 ++ ["Meme-friendly language"]) else st7
  let st9 :=
    if testStartWordRegex lower ["stop", "start", "never", "always", "don\x27t", "do"]
    then (st8.1 + 1, st8.2 ++ ["Imperative/actionable"]) else st8
  let verbs := nlp.verbCount sentence
  let stA :=
    if 0 < verbs then (st9.1 + verbs * (1/2), st9.2 ++ [toString verbs ++ " verb(s)"])
    else st9
  let adjectives := nlp.adjectiveCount sentence
  let stB :=
    if 0 < adjectives
    then (stA.1 + adjectives * (3/10), stA.2 ++ [toString adjectives ++ " adjective(s)"])
    else stA
  let stC :=
    if nlp.properNounFound sentence
    then (stB.1 + 1, stB.2 ++ ["Contains proper noun(s)"]) else stB
  let stD :=
    if nlp.questionFound sentence
    then (stC.1 + 2, stC.2 ++ ["Grammatical question"]) else stC
  if nlp.hasNegative sentence then (stD.1 + 1, stD.2 ++ ["Contains negation"]) else stD

/-- `extractNGrams` from `extract-quotes.ts`: all `n`-word windows of the
whitespace-split content whose joined length is at most `maxLength`. -/
def extractNGrams (text : String) (n maxLength : ℕ) : List String :=
  let words := splitWs text
  (List.range (words.length + 1 - n)).filterMap (fun i =>
    let ngram := joinSep " " ((words.drop i).take n)
    if ngram.length ≤ maxLength then some ngram else none)

/-- Validated arguments of `extract_key_quotes` (after the zod schema
applies the defaults `maxLength = 100`, `limit = 10`). -/
structure ExtractArgs where
  content : String
  maxLength : ℕ := 100
  limit : ℕ := 10

/-- The position classification of `extractKeyQuotes`
(`< 0.33 → beginning`, `> 0.66 → end`, else `middle`). -/
def positionLabel (index total : ℕ) : QuotePosition :=
  let rel : ℚ := (index : ℚ) / (total : ℚ)
  if rel < 33/100 then QuotePosition.beginning
  else if rel > 66/100 then QuotePosition.ending
  else QuotePosition.middle

/-- The scored-and-filtered sentence candidates: score each sentence, then
keep `score > 0 && text.length <= maxLength`. -/
def scoredSentencesOf (nlp : Nlp) (args : ExtractArgs) : List ExtractedQuote :=
  let sentences := nlp.sentences args.content
  let total := sentences.length
  (sentences.enum.map (fun p =>
    let sr := scoreQuote nlp p.2 p.1 total args.maxLength
    { text := p.2, score := sr.1, reason := joinSep ", " sr.2,
      position := positionLabel p.1 total : ExtractedQuote })).filter
    (fun s => 0 < s.score && s.text.length ≤ args.maxLength)

/-- The n-gram candidates (window sizes 3 and 5): flat score 1, plus 2
when at most 40 characters. -/
def scoredNGramsOf (args : ExtractArgs) : List ExtractedQuote :=
  let trigrams := extractNGrams args.content 3 args.maxLength
  let pentgrams := extractNGrams args.content 5 args.maxLength
  (trigrams ++ pentgrams).map (fun ngram =>
    if ngram.length ≤ 40 then
      { text := ngram, score := 1 + 2, reason := joinSep ", " ["N-gram extract", "Very short"],
        position := QuotePosition.middle }
    else
      { text := ngram, score := 1, reason := "N-gram extract",
        position := QuotePosition.middle })

/-- The combined candidate pool (`[...scoredSentences, ...scoredNGrams]`). -/
def allCandidatesOf (nlp : Nlp) (args : ExtractArgs) : List ExtractedQuote :=
  scoredSentencesOf nlp args ++ scoredNGramsOf args

/-- One `Map.set` step of the JS `new Map(entries)` construction: a
duplicate key keeps its original position but its value is replaced by the
new one; a fresh key is appended. -/
def insertEntry (m : List (String × ExtractedQuote)) (k : String) (v : ExtractedQuote) :
    List (String × ExtractedQuote) :=
  if (m.find? (fun p => p.1 = k)).isSome then
    m.map (fun p => if p.1 = k then (k, v) else p)
  else m ++ [(k, v)]

/-- `Array.from(new Map(allQuotes.map(q => [q.text.toLowerCase(), q])).values())`. -/
def dedupByKey (l : List ExtractedQuote) : List (String × ExtractedQuote) :=
  l.foldl (fun m q => insertEntry m (jsToLower q.text) q) []

/-- The deduplicated candidate list of `extractKeyQuotes`. -/
def uniqueQuotesOf (nlp : Nlp) (args : ExtractArgs) : List ExtractedQuote :=
  (dedupByKey (allCandidatesOf nlp args)).map (·.2)

/-- Descending score, the comparator `(a, b) => b.score - a.score`. -/
def quoteGe (a b : ExtractedQuote) : Prop := b.score ≤ a.score

instance : DecidableRel quoteGe := fun a b =>
  inferInstanceAs (Decidable (b.score ≤ a.score))

structure ExtractAnalysis where
  contentLength : ℕ
  sentenceCount : ℕ
  averageSentenceLength : ℤ
deriving DecidableEq, Repr

structure ExtractResult where
  quotes : List ExtractedQuote
  analysis : ExtractAnalysis
deriving DecidableEq, Repr

/-- `extractKeyQuotes` from `extract-quotes.ts`: score the sentences,
add the n-gram candidates, deduplicate by lower-cased text, sort by
descending score, take the first `limit`, and report the content/sentence
statistics (`sum / length || 0`, rounded). -/
def extractKeyQuotes (nlp : Nlp) (args : ExtractArgs) : ExtractResult :=
  let sentences := nlp.sentences args.content
  let topQuotes := ((uniqueQuotesOf nlp args).insertionSort quoteGe).take args.limit
  let avg : ℚ :=
    if sentences.length = 0 then 0
    else ((sentences.map (fun s => (s.length : ℚ))).sum) / (sentences.length : ℚ)
  { quotes := topQuotes,
    analysis :=
      { contentLength := args.content.length,
        sentenceCount := sentences.length,
        averageSentenceLength := jsRound avg } }

/-! ### `src/tools/suggest-templates.ts` (template suggester)

`analyzeContent` mixes regex tests with `compromise` NLP calls (tense
detection, question counting); its result record is therefore passed in as
an oracle value of type `ContentAnalysis`.  `scoreTemplate` and the
ranking pipeline are embedded from the source. -/
/-- The signal bundle produced by `analyzeContent`. -/
structure ContentAnalysis where
  surprise : Bool
  confusion : Bool
  irony : Bool
  preference : Bool
  comparison : Bool
  question : Bool
  success : Bool
  failure : Bool
  awkward : Bool
  confident : Bool
  hasPastTense : Bool
  hasPresentTense : Bool
  hasFutureTense : Bool
  hasNegation : Bool
  hasContrast : Bool
  questionCount : ℕ
  exclamationCount : ℕ
  sentenceCount : ℕ
deriving DecidableEq, Repr

/-- A catalog entry (`templates` from `src/templates/catalog.ts`), with
the fields the tools under verification read. -/
structure Template where
  id : String
  name : String
  slots : ℕ
  exampleLines : List String
deriving DecidableEq, Repr

abbrev Catalog := List (String × Template)

/-- `scoreTemplate` from `suggest-templates.ts`: keyword overlap at 3
points per matched keyword, category-conditional sentiment bonuses,
grammatical-pattern bonuses, the per-template special-case rules, and the
popularity fallback (+0.5 when the score is still exactly 0).  Returns
`(0, [])` when the template has no metadata. -/
def scoreTemplate (meta : MetaTable) (templateId content : String)
    (a : ContentAnalysis) : ℚ × List String :=
  let lower := jsToLower content
  match alookup meta templateId with
  | none => (0, [])
  | some md =>
    let keywordMatches := md.keywords.filter (fun kw => includesStr lower (jsToLower kw))
    let st0 : ℚ × List String :=
      if 0 < keywordMatches.length then
        (keywordMatches.length * 3,
         ["Keywords matched: " ++ joinSep ", " keywordMatches])
      else (0, [])
    let st1 :=
      if a.preference && md.category = "comparisons"
      then (st0.1 + 2, st0.2 ++ ["Content shows preference/comparison"]) else st0
    let st2 :=
      if a.confusion && md.category = "questioning"
      then (st1.1 + 2, st1.2 ++ ["Content expresses confusion/uncertainty"]) else st1
    let st3 :=
      if a.surprise && md.keywords.any (fun k => includesStr k "surprise")
      then (st2.1 + 2, st2.2 ++ ["Content shows surprise"]) else st2
    let st4 :=
      if a.awkward && md.category = "social"
      then (st3.1 + 2, st3.2 ++ ["Content describes awkward situation"]) else st3
    let st5 :=
      if a.confident && md.keywords.any (fun k => includesStr k "opinion")
      then (st4.1 + 2, st4.2 ++ ["Content expresses strong opinion"]) else st4
    let st6 :=
      if a.success && md.category = "success-fail"
      then (st5.1 + 2, st5.2 ++ ["Content mentions success/achievement"]) else st5
    let st7 :=
      if a.failure && md.category = "success-fail"
      then (st6.1 + 2, st6.2 ++ ["Content mentions failure/mistake"]) else st6
    let st8 :=
      if a.hasPastTense && a.hasPresentTense && md.category = "comparisons"
      then (st7.1 + 3,
        st7.2 ++ ["Past/present tense contrast detected (before/after pattern)"])
      else st7
    let st9 :=
      if a.hasContrast && md.category = "comparisons"
      then (st8.1 + 2, st8.2 ++ ["Grammatical contrast pattern detected"]) else st8
    let stA :=
      if 0 < a.questionCount && md.category = "questioning"
      then (st9.1 + 2, st9.2 ++ [toString a.questionCount ++ " question(s) found"])
      else st9
    let stB :=
      if a.hasNegation && 0 < a.questionCount
      then (stA.1 + 1, stA.2 ++ ["Negative question pattern (expressing doubt)"])
      else stA
    let stC :=
      if templateId = "drake" then
        let d0 :=
          if a.preference || a.comparison || a.irony
          then (stB.1 + 3, stB.2 ++ ["Strong preference/comparison pattern detected"])
          else stB
        if (a.hasPastTense && a.hasPresentTense) ||
            testWordRegex lower ["used to", "years", "before", "now", "but now", "instead"]
        then (d0.1 + 4, d0.2 ++ ["Before/after temporal pattern detected"])
        else d0
      else stB
    let stD :=
      if templateId = "db" && testWordRegex lower ["distract", "tempt", "focus"]
      then (stC.1 + 3, stC.2 ++ ["Distraction pattern detected"]) else stC
    let stE :=
      if templateId = "fry" then
        let f0 :=
          if a.confusion && a.question
          then (stD.1 + 3, stD.2 ++ ["Uncertainty question pattern detected"])
          else stD
        if a.hasNegation && testWordRegex lower ["not sure", "uncertain"]
        then (f0.1 + 2, f0.2 ++ ["Negative uncertainty expression"])
        else f0
      else stD
    let stF :=
      if templateId = "cmm" && a.confident
      then (stE.1 + 3, stE.2 ++ ["Strong opinion/hot take detected"]) else stE
    let stG :=
      if templateId = "pigeon" &&
          testWordRegex lower ["is this", "confus", "wrong", "mistak"]
      then (stF.1 + 3, stF.2 ++ ["Misidentification pattern detected"]) else stF
    let stH :=
      if templateId = "astronaut" && a.surprise && a.irony
      then (stG.1 + 3, stG.2 ++ ["Ironic revelation pattern detected"]) else stG
    let stI :=
      if templateId = "gru" &&
          testWordRegex lower ["plan", "expect", "turn out", "backfire"]
      then (stH.1 + 3, stH.2 ++ ["Failed plan pattern detected"]) else stH
    let stJ :=
      if templateId = "woman-cat" &&
          testWordRegex lower ["yell", "argue", "angry", "confus", "don\x27t understand"]
      then (stI.1 + 3, stI.2 ++ ["Argument/confusion pattern detected"]) else stI
    if stJ.1 = 0 && md.popularity = some "high"
    then (stJ.1 + 1/2, stJ.2 ++ ["Popular template"]) else stJ

structure ScoredTemplate where
  templateId : String
  score : ℚ
  reasons : List String
deriving DecidableEq, Repr

/-- Descending score, the comparator `(a, b) => b.score - a.score`. -/
def scoredGe (a b : ScoredTemplate) : Prop := b.score ≤ a.score

instance : DecidableRel scoredGe := fun a b =>
  inferInstanceAs (Decidable (b.score ≤ a.score))

/-- Every catalog template scored (`Object.keys(templateMetadata).map`). -/
def scoredAllOf (meta : MetaTable) (content : String) (a : ContentAnalysis) :
    List ScoredTemplate :=
  meta.map (fun p =>
    let sr := scoreTemplate meta p.1 content a
    ⟨p.1, sr.1, sr.2⟩)

/-- The `topSuggestions` of `suggestTemplates`: keep strictly positive
scores, sort descending, take the first `limit`. -/
def topSuggestionsOf (meta : MetaTable) (content : String) (a : ContentAnalysis)
    (limit : ℕ) : List ScoredTemplate :=
  (((scoredAllOf meta content a).filter
    (fun s => 0 < s.score)).insertionSort scoredGe).take limit

inductive Confidence
  | high
  | medium
  | low
deriving DecidableEq, Repr

/-- `s.score >= 5 ? 'high' : s.score >= 2 ? 'medium' : 'low'`. -/
def confidenceOf (score : ℚ) : Confidence :=
  if 5 ≤ score then Confidence.high
  else if 2 ≤ score then Confidence.medium
  else Confidence.low

structure TemplateSuggestion where
  template : String
  name : String
  reason : String
  confidence : Confidence
  usage : String
  slots : ℕ
  category : String
deriving DecidableEq, Repr

/-- The per-suggestion formatting step of `suggestTemplates` (the catalog
and metadata lookups are total here via defaults; the source assumes the
id-bijection invariant and reads the fields directly). -/
def formatSuggestion (meta : MetaTable) (catalog : Catalog)
    (s : ScoredTemplate) : TemplateSuggestion :=
  let md := (alookup meta s.templateId).getD
    { usage := "", category := "", keywords := [] }
  let tpl := (alookup catalog s.templateId).getD
    { id := s.templateId, name := "", slots := 0, exampleLines := [] }
  { template := s.templateId, name := tpl.name, reason := joinSep "; " s.reasons,
    confidence := confidenceOf s.score, usage := md.usage, slots := tpl.slots,
    category := md.category }

structure SuggestResult where
  suggestions : List TemplateSuggestion
  contentLength : ℕ
  wordCount : ℕ
deriving DecidableEq, Repr

/-- `suggestTemplates` from `suggest-templates.ts` (the NLP analysis of
the content is the oracle value `a`). -/
def suggestTemplates (meta : MetaTable) (catalog : Catalog) (a : ContentAnalysis)
    (content : String) (limit : ℕ) : SuggestResult :=
  { suggestions := (topSuggestionsOf meta content a limit).map (formatSuggestion meta catalog),
    contentLength := content.length,
    wordCount := (splitWs content).length }

/-- The zod input schema of `suggest_templates`
(`content: z.string().min(1)`, `limit: z.number().min(1).max(10).optional().default(5)`):
an omitted limit defaults to 5, an out-of-range limit is rejected before
any scoring. -/
def parseSuggestArgs (content : String) (limit : Option ℤ) :
    Except String (String × ℕ) :=
  if content.length < 1 then
    Except.error "content: String must contain at least 1 character(s)"
  else
    match limit with
    | none => Except.ok (content, 5)
    | some n =>
      if 1 ≤ n ∧ n ≤ 10 then Except.ok (content, n.toNat)
      else Except.error "limit: out of range"

/-- A concrete analysis bundle with every signal off, used to instantiate
the general theorems. -/
def analysis0 : ContentAnalysis :=
  { surprise := false, confusion := false, irony := false, preference := false,
    comparison := false, question := false, success := false, failure := false,
    awkward := false, confident := false, hasPastTense := false,
    hasPresentTense := false, hasFutureTense := false, hasNegation := false,
    hasContrast := false, questionCount := 0, exclamationCount := 0,
    sentenceCount := 1 }

/-- A concrete NLP oracle used to instantiate the general theorems: one
sentence per input, no verbs/adjectives/proper nouns/questions/negation. -/
def constNlp : Nlp :=
  { sentences := fun s => [s], verbCount := fun _ => 0, adjectiveCount := fun _ => 0,
    properNounFound := fun _ => false, questionFound := fun _ => false,
    hasNegative := fun _ => false }

/-- Concrete extractor arguments whose single sentence coincides with its
own word trigram. -/
def args0 : ExtractArgs := { content := "cats bark loudly" }

/-- The sentence candidate the pool produces first for `args0`. -/
def sentenceQuote : ExtractedQuote :=
  ⟨"cats bark loudly", 7, "Very concise, Opening hook", QuotePosition.beginning⟩

/-- The n-gram candidate the pool produces second for `args0`. -/
def ngramQuote : ExtractedQuote :=
  ⟨"cats bark loudly", 3, "N-gram extract, Very short", QuotePosition.middle⟩

/-! ### `src/tools/generate-meme.ts` (batch meme generation)

The network fetch (`fetchImageAsBase64`) is an external collaborator,
modelled by an oracle `fetch : String → Except String String` mapping a
URL to a base64 image or an error message.  `Promise.allSettled` over
independent per-item promises is modelled by a per-item map: each entry is
a function of its own configuration alone. -/
structure MemeConfig where
  template : String
  text_lines : List String
deriving DecidableEq, Repr

/-- One element of the batch result: `{success, template, url?,
base64Image?, error?}`. -/
structure BatchEntry where
  success : Bool
  template : String
  url : Option String
  base64Image : Option String
  error : Option String
deriving DecidableEq, Repr

/-- `JSON.stringify` of a plain string array (no escaping needed for the
catalog's example data). -/
def jsonStringifyList (l : List String) : String :=
  "[" ++ joinSep "," (l.map (fun s => "\"" ++ s ++ "\"")) ++ "]"

/-- `generateSingleMeme` from `generate-meme.ts`: invalid template →
error; slot-count mismatch → error naming the template's requirement;
otherwise build the URL and fetch. -/
def generateSingleMeme (catalog : Catalog) (fetch : String → Except String String)
    (baseUrl template : String) (text_lines : List String) :
    Except String (String × String) :=
  match alookup catalog template with
  | none => Except.error ("Invalid template: " ++ template)
  | some info =>
    if text_lines.length ≠ info.slots then
      Except.error ("Template \x27" ++ template ++ "\x27 requires exactly " ++
        toString info.slots ++ " text lines, got " ++ toString text_lines.length ++
        ". Example: " ++ jsonStringifyList info.exampleLines)
    else
      match fetch (buildMemeUrl baseUrl template text_lines) with
      | Except.ok b64 => Except.ok (buildMemeUrl baseUrl template text_lines, b64)
      | Except.error e => Except.error e

/-- The per-item result record built by `generateBatchMemes` from one
settled promise. -/
def batchEntry (catalog : Catalog) (fetch : String → Except String String)
    (baseUrl : String) (m : MemeConfig) : BatchEntry :=
  match generateSingleMeme catalog fetch baseUrl m.template m.text_lines with
  | Except.ok r =>
    { success := true, template := m.template, url := some r.1,
      base64Image := some r.2, error := none }
  | Except.error e =>
    { success := false, template := m.template, url := none,
      base64Image := none, error := some e }

/-- `generateBatchMemes` from `generate-meme.ts`. -/
def generateBatchMemes (catalog : Catalog) (fetch : String → Except String String)
    (baseUrl : String) (memes : List MemeConfig) : List BatchEntry :=
  memes.map (batchEntry catalog fetch baseUrl)

/-- `handleGenerateMeme`: always processes the batch. -/
def handleGenerateMeme (catalog : Catalog) (fetch : String → Except String String)
    (baseUrl : String) (memes : List MemeConfig) : List BatchEntry :=
  generateBatchMemes catalog fetch baseUrl memes

/-! ### `get_template_details` (from the template-details tool module) -/
/-- The details record assembled per requested id (the source's `example`
field is embedded as `exampleLines`; `example` is a Lean keyword). -/
structure TemplateDetails where
  id : String
  name : String
  usage : String
  category : String
  keywords : List String
  slots : ℕ
  exampleLines : List String
  similar : List String
  popularity : Option String
deriving DecidableEq, Repr

/-- The per-id lookup of the `getTemplateDetails` loop: `none` exactly
when `!template || !metadata`. -/
def detailsFor (catalog : Catalog) (meta : MetaTable) (templateId : String) :
    Option TemplateDetails :=
  match alookup catalog templateId, alookup meta templateId with
  | some t, some md =>
    some { id := t.id, name := t.name, usage := md.usage, category := md.category,
           keywords := md.keywords, slots := t.slots, exampleLines := t.exampleLines,
           similar := md.similar, popularity := md.popularity }
  | _, _ => none

structure GetTemplateDetailsResult where
  templates : List TemplateDetails
  count : ℕ
deriving DecidableEq, Repr

/-- `getTemplateDetails`: collect the found details and the missing ids in
request order; if anything is missing, throw an error naming every missing
id; otherwise return every record with its count. -/
def getTemplateDetails (catalog : Catalog) (meta : MetaTable)
    (templateIds : List String) : Except String GetTemplateDetailsResult :=
  let detailsList := templateIds.filterMap (detailsFor catalog meta)
  let notFound := templateIds.filter (fun tid => (detailsFor catalog meta tid).isNone)
  if notFound ≠ [] then
    Except.error ("Template(s) not found: " ++ joinSep ", " notFound)
  else
    Except.ok { templates := detailsList, count := detailsList.length }

/-- A one-template metadata table used to instantiate the general
theorems on concrete inputs. -/
def mdCat : Metadata :=
  { usage := "u", category := "reactions", keywords := ["cat"] }

def metaCat : MetaTable := [("t1", mdCat)]

end Meme

/-- A one-entry catalog matching `metaCat`, for the concrete instances. -/
def catD : Meme.Catalog :=
  [("t1", { id := "t1", name := "T One", slots := 2, exampleLines := ["a", "b"] })]

/-- A fetch oracle that always succeeds. -/
def fetchOk : String → Except String String := fun _ => Except.ok "IMG"

/-- A concrete three-item batch: a valid config, an unknown template, and
a slot-count mismatch. -/
def memes3 : List Meme.MemeConfig :=
  [⟨"t1", ["a", "b"]⟩, ⟨"zz", ["a", "b"]⟩, ⟨"t1", ["a"]⟩]

namespace Meme

theorem bucketExtends_refl (o : Option (List String)) : BucketExtends o o :=
  fun l hl => ⟨[], by simp [hl]⟩

theorem bucketExtends_trans {a b c : Option (List String)}
    (h1 : BucketExtends a b) (h2 : BucketExtends b c) : BucketExtends a c := by
  intro l hl
  obtain ⟨e1, hb⟩ := h1 l hl
  obtain ⟨e2, hc⟩ := h2 _ hb
  exact ⟨e1 ++ e2, by simp [hc]⟩

theorem pushMatch_update_snd (l2 : List String) (d : Bool) (kw : String) :
    ∃ ext, (if d && kw ∈ l2 then l2 else l2 ++ [kw]) = l2 ++ ext := by
  by_cases hk : (d && decide (kw ∈ l2)) = true
  · exact ⟨[], by rw [if_pos hk]; simp⟩
  · exact ⟨[kw], by rw [if_neg hk]⟩

theorem alookup_pushMatch (m : Matched) (tid kw : String) (d : Bool) (b : String) :
    BucketExtends (alookup m b) (alookup (pushMatch m tid kw d) b) := by
  intro l hl
  obtain ⟨p0, hfind, hp0⟩ := Option.map_eq_some'.mp hl
  have hp0b : p0.1 = b := by
    have := List.find?_some hfind
    simpa using this
  subst hp0
  unfold pushMatch
  split
  · -- an entry for `tid` exists: in-place map update, keys preserved
    rw [alookup, List.find?_map]
    have hpred : (fun p : String × List String => decide (p.1 = b)) ∘
        (fun p : String × List String =>
          if p.1 = tid then (p.1, if d && kw ∈ p.2 then p.2 else p.2 ++ [kw]) else p) =
        fun p : String × List String => decide (p.1 = b) := by
      funext p
      by_cases hp : p.1 = tid <;> simp [hp]
    rw [hpred, hfind]
    by_cases hb : p0.1 = tid
    · by_cases hk : d = true ∧ kw ∈ p0.2
      · exact ⟨[], by simp [hb, hk]⟩
      · exact ⟨[kw], by simp [hb, hk]⟩
    · exact ⟨[], by simp [hb]⟩
  · -- no entry for `tid`: appended at the end, earlier entries found first
    rw [alookup, List.find?_append, hfind]
    exact ⟨[], by simp⟩

/-- Folding any bucket-extending step preserves `BucketExtends`. -/
theorem bucketExtends_foldl {α : Type} (g : Matched → α → Matched) (b : String)
    (l : List α) (hg : ∀ m a, a ∈ l → BucketExtends (alookup m b) (alookup (g m a) b))
    (m : Matched) : BucketExtends (alookup m b) (alookup (l.foldl g m) b) := by
  induction l generalizing m with
  | nil => exact bucketExtends_refl _
  | cons a t ih =>
    exact bucketExtends_trans (hg m a (by simp))
      (ih (fun m x hx => hg m x (by simp [hx])) (g m a))

theorem alookup_processTermExact (idx : List (String × List String)) (m : Matched)
    (t b : String) : BucketExtends (alookup m b) (alookup (processTermExact idx m t) b) := by
  unfold processTermExact
  cases alookup idx t with
  | none => exact bucketExtends_refl _
  | some tids =>
    exact bucketExtends_foldl _ b tids (fun m a _ => alookup_pushMatch m a t false b) m

theorem alookup_fuzzyStep (t b : String) (m : Matched) (p : String × List String) :
    BucketExtends (alookup m b) (alookup (fuzzyStep t m p) b) := by
  unfold fuzzyStep
  split
  · exact bucketExtends_foldl _ b p.2 (fun m a _ => alookup_pushMatch m a p.1 true b) m
  · exact bucketExtends_refl _

theorem alookup_processTerm (idx : List (String × List String)) (m : Matched)
    (t b : String) : BucketExtends (alookup m b) (alookup (processTerm idx m t) b) := by
  unfold processTerm
  refine bucketExtends_trans (alookup_processTermExact idx m t b) ?_
  exact bucketExtends_foldl _ b idx (fun m p _ => alookup_fuzzyStep t b m p) _

theorem collectMatches_append (idx : List (String × List String))
    (terms : List String) (t : String) :
    collectMatches idx (terms ++ [t]) = processTerm idx (collectMatches idx terms) t := by
  unfold collectMatches
  rw [List.foldl_append]
  rfl

theorem alookup_collectMatches_suffix (idx : List (String × List String))
    (rest : List String) (m : Matched) (b : String) :
    BucketExtends (alookup m b) (alookup (rest.foldl (processTerm idx) m) b) :=
  bucketExtends_foldl _ b rest (fun m t _ => alookup_processTerm idx m t b) m

theorem calculateRelevance_nonneg (meta : MetaTable) (tid : String)
    (kws terms : List String) : 0 ≤ calculateRelevance meta tid kws terms := by
  unfold calculateRelevance
  cases alookup meta tid with
  | none => simp
  | some md => positivity

theorem calculateRelevance_mono (meta : MetaTable) (tid : String)
    (kws ext terms : List String) (t : String) :
    calculateRelevance meta tid kws terms ≤
      calculateRelevance meta tid (kws ++ ext) (terms ++ [t]) := by
  unfold calculateRelevance
  cases halk : alookup meta tid with
  | none => simp
  | some md =>
    simp only
    have hfilter : ∀ (l e : List String) (p q : String → Bool), (∀ x, p x → q x) →
        (l.filter p).length ≤ ((l ++ e).filter q).length := by
      intro l e p q hpq
      calc (l.filter p).length ≤ (l.filter q).length := by
            rw [← List.countP_eq_length_filter, ← List.countP_eq_length_filter]
            exact List.countP_mono_left (fun x _ hx => hpq x hx)
        _ ≤ ((l ++ e).filter q).length := by
            rw [List.filter_append]
            simp
    have hex : (kws.filter (fun kw => terms.any (fun term => kw = term))).length ≤
        ((kws ++ ext).filter (fun kw => (terms ++ [t]).any (fun term => kw = term))).length := by
      refine hfilter kws ext _ _ (fun x hx => ?_)
      rw [List.any_append]
      simp [hx]
    have hpar : (kws.filter
          (fun kw => terms.any (fun term => includesStr kw term || includesStr term kw))).length ≤
        ((kws ++ ext).filter
          (fun kw => (terms ++ [t]).any
            (fun term => includesStr kw term || includesStr term kw))).length := by
      refine hfilter kws ext _ _ (fun x hx => ?_)
      rw [List.any_append]
      simp [hx]
    have husage : ((terms.filter (fun term => includesStr (jsToLower md.usage) term)).length : ℚ) ≤
        (((terms ++ [t]).filter (fun term => includesStr (jsToLower md.usage) term)).length : ℚ) := by
      rw [List.filter_append]
      simp
    have hex' : ((kws.filter (fun kw => terms.any (fun term => kw = term))).length : ℚ) ≤
        (((kws ++ ext).filter (fun kw => (terms ++ [t]).any (fun term => kw = term))).length : ℚ) := by
      exact_mod_cast hex
    have hpar' : ((kws.filter
          (fun kw => terms.any (fun term => includesStr kw term || includesStr term kw))).length : ℚ) ≤
        (((kws ++ ext).filter
          (fun kw => (terms ++ [t]).any
            (fun term => includesStr kw term || includesStr term kw))).length : ℚ) := by
      exact_mod_cast hpar
    gcongr

/-! #### Uniqueness of the keys of the matched-templates map -/
theorem nodup_keys_pushMatch (m : Matched) (tid kw : String) (d : Bool)
    (h : (m.map (·.1)).Nodup) : ((pushMatch m tid kw d).map (·.1)).Nodup := by
  unfold pushMatch
  split
  · have hkeys : ((m.map (fun p : String × List String =>
        if p.1 = tid then (p.1, if d && kw ∈ p.2 then p.2 else p.2 ++ [kw]) else p)).map (·.1)) =
        m.map (·.1) := by
      rw [List.map_map]
      refine List.map_congr_left (fun p _ => ?_)
      by_cases hp : p.1 = tid <;> simp [hp]
    rwa [hkeys]
  · rename_i hnone
    have habs : tid ∉ m.map (·.1) := by
      intro hmem
      obtain ⟨p, hpm, hp1⟩ := List.mem_map.mp hmem
      have := List.find?_eq_none.mp (Option.not_isSome_iff_eq_none.mp hnone) p hpm
      simp [hp1] at this
    rw [List.map_append]
    rw [List.nodup_append]
    exact ⟨h, by simp, by simpa [List.disjoint_singleton] using habs⟩

theorem nodup_keys_foldl {α : Type} (g : Matched → α → Matched)
    (hg : ∀ m a, (m.map (·.1)).Nodup → ((g m a).map (·.1)).Nodup) (l : List α)
    (m : Matched) (h : (m.map (·.1)).Nodup) : ((l.foldl g m).map (·.1)).Nodup := by
  induction l generalizing m with
  | nil => exact h
  | cons a t ih => exact ih (g m a) (hg m a h)

theorem nodup_keys_processTermExact (idx : List (String × List String)) (m : Matched)
    (t : String) (h : (m.map (·.1)).Nodup) :
    ((processTermExact idx m t).map (·.1)).Nodup := by
  unfold processTermExact
  cases alookup idx t with
  | none => exact h
  | some tids =>
    exact nodup_keys_foldl _ (fun m a => nodup_keys_pushMatch m a t false) tids m h

theorem nodup_keys_fuzzyStep (t : String) (m : Matched) (p : String × List String)
    (hm : (m.map (·.1)).Nodup) : ((fuzzyStep t m p).map (·.1)).Nodup := by
  unfold fuzzyStep
  split
  · exact nodup_keys_foldl _ (fun m a => nodup_keys_pushMatch m a p.1 true) p.2 m hm
  · exact hm

theorem nodup_keys_processTerm (idx : List (String × List String)) (m : Matched)
    (t : String) (h : (m.map (·.1)).Nodup) :
    ((processTerm idx m t).map (·.1)).Nodup := by
  unfold processTerm
  exact nodup_keys_foldl _ (fun m p hm => nodup_keys_fuzzyStep t m p hm) idx _
    (nodup_keys_processTermExact idx m t h)

theorem nodup_keys_collectMatches (idx : List (String × List String))
    (terms : List String) : ((collectMatches idx terms).map (·.1)).Nodup :=
  nodup_keys_foldl _ (fun m t => nodup_keys_processTerm idx m t) terms [] (by simp)

theorem assoc_mem_unique {m : Matched} (hnd : (m.map (·.1)).Nodup)
    {k : String} {v v' : List String} (h1 : (k, v) ∈ m) (h2 : (k, v') ∈ m) : v = v' := by
  induction m with
  | nil => cases h1
  | cons p rest ih =>
    rw [List.map_cons, List.nodup_cons] at hnd
    rcases List.mem_cons.mp h1 with h1' | h1' <;> rcases List.mem_cons.mp h2 with h2' | h2'
    · exact congrArg Prod.snd (h1'.trans h2'.symm)
    · exfalso
      exact hnd.1 (by simpa [← h1'] using List.mem_map_of_mem (·.1) h2')
    · exfalso
      exact hnd.1 (by simpa [← h2'] using List.mem_map_of_mem (·.1) h1')
    · exact ih hnd.2 h1' h2'

/-- The code's relevance computation agrees with the formula worded in the
specification, whenever the template has metadata. -/
theorem calculateRelevance_eq_spec (meta : MetaTable) (tid : String)
    (kws terms : List String) (md : Metadata) (h : alookup meta tid = some md) :
    calculateRelevance meta tid kws terms = specRelevanceFormula md kws terms := by
  unfold calculateRelevance specRelevanceFormula
  rw [h]
  simp only
  congr 1
  ring

theorem calculateRelevance_of_no_metadata (meta : MetaTable) (tid : String)
    (kws terms : List String) (h : alookup meta tid = none) :
    calculateRelevance meta tid kws terms = 0 := by
  unfold calculateRelevance
  rw [h]

/-- Membership in the search output, unfolded to the matching loop. -/
theorem mem_searchByKeyword_iff (meta : MetaTable) (terms : List String)
    (r : SearchResult) :
    r ∈ searchByKeyword meta terms ↔
      ∃ p ∈ collectMatches (buildKeywordIndex meta) terms,
        (if 0 < calculateRelevance meta p.1 p.2 terms then
          some (⟨p.1, calculateRelevance meta p.1 p.2 terms⟩ : SearchResult)
        else none) = some r := by
  unfold searchByKeyword
  rw [List.Perm.mem_iff (List.perm_insertionSort _ _), List.mem_filterMap]

theorem bucketExtends_preserves {m m' : Matched} {tid kw : String}
    (h : BucketExtends (alookup m tid) (alookup m' tid)) (hp : HasMatch m tid kw) :
    HasMatch m' tid kw := by
  obtain ⟨kws, h1, h2⟩ := hp
  obtain ⟨ext, h3⟩ := h kws h1
  exact ⟨kws ++ ext, h3, List.mem_append.mpr (Or.inl h2)⟩

/-- `pushMatch` itself establishes the recorded match. -/
theorem hasMatch_pushMatch (m : Matched) (tid kw : String) (d : Bool) :
    HasMatch (pushMatch m tid kw d) tid kw := by
  unfold pushMatch
  split
  · rename_i hsome
    obtain ⟨p0, hfind⟩ := Option.isSome_iff_exists.mp hsome
    have hp0 : p0.1 = tid := by simpa using List.find?_some hfind
    rw [HasMatch, alookup, List.find?_map]
    have hpred : (fun p : String × List String => decide (p.1 = tid)) ∘
        (fun p : String × List String =>
          if p.1 = tid then (p.1, if d && kw ∈ p.2 then p.2 else p.2 ++ [kw]) else p) =
        fun p : String × List String => decide (p.1 = tid) := by
      funext p
      by_cases hp : p.1 = tid <;> simp [hp]
    rw [hpred, hfind]
    by_cases hk : d = true ∧ kw ∈ p0.2
    · exact ⟨p0.2, by simp [hp0, hk], hk.2⟩
    · exact ⟨p0.2 ++ [kw], by simp [hp0, hk], by simp⟩
  · rename_i hnone
    rw [HasMatch, alookup, List.find?_append,
      Option.not_isSome_iff_eq_none.mp hnone]
    exact ⟨[kw], by simp, by simp⟩

/-- Pushing keyword `kw` for every template of a bucket records it for any
member of the bucket. -/
theorem hasMatch_foldl_pushMatch (tids : List String) (tid kw : String)
    (htid : tid ∈ tids) (m : Matched) :
    HasMatch (tids.foldl (fun a x => pushMatch a x kw true) m) tid kw := by
  obtain ⟨s, t, rfl⟩ := List.append_of_mem htid
  rw [List.foldl_append, List.foldl_cons]
  refine bucketExtends_preserves
    (bucketExtends_foldl _ tid t (fun m a _ => alookup_pushMatch m a kw true tid) _) ?_
  exact hasMatch_pushMatch _ tid kw true

/-! #### Lemmas about the JS `Map`-based deduplication -/
theorem mem_insertEntry {m : List (String × ExtractedQuote)} {k : String}
    {v : ExtractedQuote} {p : String × ExtractedQuote}
    (h : p ∈ insertEntry m k v) : p ∈ m ∨ p = (k, v) := by
  unfold insertEntry at h
  split at h
  · obtain ⟨p0, hp0, hmap⟩ := List.mem_map.mp h
    by_cases hk : p0.1 = k
    · right
      rw [← hmap]
      simp [hk]
    · left
      rw [← hmap]
      simpa [hk] using hp0
  · rcases List.mem_append.mp h with h | h
    · exact Or.inl h
    · right
      simpa using h

theorem alookup_insertEntry_self (m : List (String × ExtractedQuote)) (k : String)
    (v : ExtractedQuote) : alookup (insertEntry m k v) k = some v := by
  unfold insertEntry
  split
  · rename_i hsome
    obtain ⟨p0, hfind⟩ := Option.isSome_iff_exists.mp hsome
    have hp0 : p0.1 = k := by simpa using List.find?_some hfind
    rw [alookup, List.find?_map]
    have hpred : (fun p : String × ExtractedQuote => decide (p.1 = k)) ∘
        (fun p : String × ExtractedQuote => if p.1 = k then (k, v) else p) =
        fun p : String × ExtractedQuote => decide (p.1 = k) := by
      funext p
      by_cases hp : p.1 = k <;> simp [hp]
    rw [hpred, hfind]
    simp [hp0]
  · rename_i hnone
    rw [alookup, List.find?_append, Option.not_isSome_iff_eq_none.mp hnone]
    simp

theorem alookup_insertEntry_other (m : List (String × ExtractedQuote)) (k : String)
    (v : ExtractedQuote) (kq : String) (h : kq ≠ k) :
    alookup (insertEntry m k v) kq = alookup m kq := by
  unfold insertEntry
  split
  · rw [alookup, List.find?_map]
    have hpred : (fun p : String × ExtractedQuote => decide (p.1 = kq)) ∘
        (fun p : String × ExtractedQuote => if p.1 = k then (k, v) else p) =
        fun p : String × ExtractedQuote => decide (p.1 = kq) := by
      funext p
      by_cases hp : p.1 = k <;> simp [hp]
    rw [hpred]
    cases hfind : List.find? (fun p : String × ExtractedQuote => decide (p.1 = kq)) m with
    | none => simp [alookup, hfind]
    | some p0 =>
      have hp0 : p0.1 = kq := by simpa using List.find?_some hfind
      have hp0k : ¬p0.1 = k := by
        rw [hp0]
        exact h
      rw [alookup, hfind]
      simp [hp0k]
  · rw [alookup, List.find?_append, alookup]
    cases hfind : List.find? (fun p : String × ExtractedQuote => decide (p.1 = kq)) m with
    | none => simp [hfind, Ne.symm h]
    | some p0 => simp [hfind]

theorem nodup_keys_insertEntry (m : List (String × ExtractedQuote)) (k : String)
    (v : ExtractedQuote) (h : (m.map (·.1)).Nodup) :
    ((insertEntry m k v).map (·.1)).Nodup := by
  unfold insertEntry
  split
  · have hkeys : ((m.map (fun p : String × ExtractedQuote =>
        if p.1 = k then (k, v) else p)).map (·.1)) = m.map (·.1) := by
      rw [List.map_map]
      refine List.map_congr_left (fun p _ => ?_)
      by_cases hp : p.1 = k <;> simp [hp]
    rwa [hkeys]
  · rename_i hnone
    have habs : k ∉ m.map (·.1) := by
      intro hmem
      obtain ⟨p, hpm, hp1⟩ := List.mem_map.mp hmem
      have := List.find?_eq_none.mp (Option.not_isSome_iff_eq_none.mp hnone) p hpm
      simp [hp1] at this
    rw [List.map_append, List.nodup_append]
    exact ⟨h, by simp, by simpa [List.disjoint_singleton] using habs⟩

theorem nodup_keys_dedup (l : List ExtractedQuote) :
    ((dedupByKey l).map (·.1)).Nodup := by
  unfold dedupByKey
  have hgen : ∀ m : List (String × ExtractedQuote), (m.map (·.1)).Nodup →
      ((l.foldl (fun m q => insertEntry m (jsToLower q.text) q) m).map (·.1)).Nodup := by
    induction l with
    | nil => exact fun m h => h
    | cons q t ih =>
      intro m h
      exact ih _ (nodup_keys_insertEntry m (jsToLower q.text) q h)
  exact hgen [] (by simp)

theorem dedup_entry_key (l : List ExtractedQuote) :
    ∀ p ∈ dedupByKey l, p.1 = jsToLower p.2.text := by
  unfold dedupByKey
  have hgen : ∀ m : List (String × ExtractedQuote),
      (∀ p ∈ m, p.1 = jsToLower p.2.text) →
      ∀ p ∈ l.foldl (fun m q => insertEntry m (jsToLower q.text) q) m,
        p.1 = jsToLower p.2.text := by
    induction l with
    | nil => exact fun m h => h
    | cons q t ih =>
      intro m h
      refine ih _ (fun p hp => ?_)
      rcases mem_insertEntry hp with hp | hp
      · exact h p hp
      · rw [hp]
  exact hgen [] (by simp)

theorem alookup_eq_of_mem {α : Type} {m : List (String × α)}
    (hnd : (m.map (·.1)).Nodup) {k : String} {v : α} (h : (k, v) ∈ m) :
    alookup m k = some v := by
  induction m with
  | nil => cases h
  | cons p rest ih =>
    rw [List.map_cons, List.nodup_cons] at hnd
    rcases List.mem_cons.mp h with h' | h'
    · rw [← h']
      simp [alookup, List.find?]
    · have hpk : ¬p.1 = k := by
        intro hh
        exact hnd.1 (by
          rw [hh]
          exact List.mem_map.mpr ⟨(k, v), h', rfl⟩)
      have hstep : List.find? (fun p : String × α => decide (p.1 = k)) (p :: rest) =
          List.find? (fun p : String × α => decide (p.1 = k)) rest := by
        rw [List.find?_cons_of_neg]
        simpa using hpk
      rw [alookup, hstep]
      exact ih hnd.2 h'

/-- The JS `Map` lookup after inserting every element of `l`: the value
for key `k` is the LAST element of `l` whose lower-cased text is `k`,
falling back to the initial map. -/
theorem alookup_dedup_foldl (l : List ExtractedQuote)
    (m : List (String × ExtractedQuote)) (k : String) :
    alookup (l.foldl (fun m q => insertEntry m (jsToLower q.text) q) m) k =
      (match (l.filter (fun q => jsToLower q.text = k)).getLast? with
      | some q => some q
      | none => alookup m k) := by
  induction l generalizing m with
  | nil => simp
  | cons q t ih =>
    rw [List.foldl_cons, ih, List.filter_cons]
    by_cases hk : jsToLower q.text = k
    · rw [if_pos (by simpa using hk)]
      cases hfl : (t.filter (fun q => decide (jsToLower q.text = k))).getLast? with
      | none =>
        have hemp : t.filter (fun q => decide (jsToLower q.text = k)) = [] := by
          simpa using hfl
        rw [hemp]
        simp only [List.getLast?_singleton]
        rw [← hk, alookup_insertEntry_self]
      | some q2 =>
        have hne : t.filter (fun q => decide (jsToLower q.text = k)) ≠ [] := by
          intro hemp
          rw [hemp] at hfl
          cases hfl
        obtain ⟨x, xs, hxx⟩ := List.exists_cons_of_ne_nil hne
        rw [hxx, List.getLast?_cons_cons, ← hxx, hfl]
    · rw [if_neg (by simpa using hk)]
      rw [alookup_insertEntry_other m (jsToLower q.text) q k (fun hh => hk hh.symm)]

theorem uniqueQuotes_getLast (nlp : Nlp) (args : ExtractArgs) {q : ExtractedQuote}
    (h : q ∈ uniqueQuotesOf nlp args) :
    ((allCandidatesOf nlp args).filter
      (fun c => jsToLower c.text = jsToLower q.text)).getLast? = some q := by
  obtain ⟨p, hp, hpq⟩ := List.mem_map.mp h
  have hkey : p.1 = jsToLower p.2.text := dedup_entry_key _ p hp
  have hmem : (p.1, p.2) ∈ dedupByKey (allCandidatesOf nlp args) := by
    simpa using hp
  have halk : alookup (dedupByKey (allCandidatesOf nlp args)) p.1 = some p.2 :=
    alookup_eq_of_mem (nodup_keys_dedup _) hmem
  rw [show dedupByKey (allCandidatesOf nlp args) =
      (allCandidatesOf nlp args).foldl
        (fun m q => insertEntry m (jsToLower q.text) q) [] from rfl,
    alookup_dedup_foldl] at halk
  rw [← hpq, ← hkey]
  cases hfl : ((allCandidatesOf nlp args).filter
      (fun c => decide (jsToLower c.text = p.1))).getLast? with
  | none =>
    rw [hfl] at halk
    simp [alookup] at halk
  | some q2 =>
    rw [hfl] at halk
    simpa using halk

theorem uniqueQuotes_subset (nlp : Nlp) (args : ExtractArgs) {q : ExtractedQuote}
    (h : q ∈ uniqueQuotesOf nlp args) : q ∈ allCandidatesOf nlp args := by
  have hlast := uniqueQuotes_getLast nlp args h
  have hmem := List.mem_of_mem_getLast? hlast
  exact (List.mem_filter.mp hmem).1

theorem pairwise_ne_of_nodup_map {α β : Type} (f : α → β) :
    ∀ l : List α, (l.map f).Nodup → l.Pairwise (fun a b => f a ≠ f b) := by
  intro l
  induction l with
  | nil => simp
  | cons a t ih =>
    intro h
    rw [List.map_cons, List.nodup_cons] at h
    refine List.Pairwise.cons (fun b hb hfb => h.1 ?_) (ih h.2)
    rw [hfb]
    exact List.mem_map.mpr ⟨b, hb, rfl⟩

theorem uniqueQuotes_pairwise (nlp : Nlp) (args : ExtractArgs) :
    List.Pairwise (fun a b => jsToLower a.text ≠ jsToLower b.text)
      (uniqueQuotesOf nlp args) := by
  apply pairwise_ne_of_nodup_map
  have hkeys := nodup_keys_dedup (allCandidatesOf nlp args)
  have heq : (dedupByKey (allCandidatesOf nlp args)).map (·.1) =
      ((dedupByKey (allCandidatesOf nlp args)).map (·.2)).map
        (fun q => jsToLower q.text) := by
    rw [List.map_map]
    exact List.map_congr_left (fun p hp => dedup_entry_key _ p hp)
  rw [heq] at hkeys
  exact hkeys

theorem quotes_subset_unique (nlp : Nlp) (args : ExtractArgs) {q : ExtractedQuote}
    (h : q ∈ (extractKeyQuotes nlp args).quotes) : q ∈ uniqueQuotesOf nlp args := by
  have h1 := List.take_subset _ _ h
  exact (List.perm_insertionSort quoteGe _).mem_iff.mp h1

theorem extractNGrams_length {text : String} {n maxLength : ℕ} {g : String}
    (h : g ∈ extractNGrams text n maxLength) : g.length ≤ maxLength := by
  unfold extractNGrams at h
  obtain ⟨i, _, hf⟩ := List.mem_filterMap.mp h
  have hf2 : (if (joinSep " " (((splitWs text).drop i).take n)).length ≤ maxLength then
      some (joinSep " " (((splitWs text).drop i).take n)) else none) = some g := hf
  split at hf2
  · obtain rfl := Option.some_inj.mp hf2
    assumption
  · cases hf2

theorem scoredNGrams_bounds (args : ExtractArgs) :
    ∀ g ∈ scoredNGramsOf args, g.text.length ≤ args.maxLength ∧ 0 < g.score := by
  intro g hg
  unfold scoredNGramsOf at hg
  obtain ⟨ngram, hng, hmap⟩ := List.mem_map.mp hg
  have hlen : ngram.length ≤ args.maxLength := by
    rcases List.mem_append.mp hng with h | h <;> exact extractNGrams_length h
  rw [← hmap]
  split <;> exact ⟨hlen, by norm_num⟩

theorem scoredSentences_bounds (nlp : Nlp) (args : ExtractArgs) :
    ∀ s ∈ scoredSentencesOf nlp args, s.text.length ≤ args.maxLength ∧ 0 < s.score := by
  intro s hs
  unfold scoredSentencesOf at hs
  have hcond := (List.mem_filter.mp hs).2
  simp only [Bool.and_eq_true, decide_eq_true_eq] at hcond
  exact ⟨hcond.2, hcond.1⟩

theorem string_eq_empty_of_length_zero {s : String} (h : s.length = 0) : s = "" := by
  cases s with
  | mk data =>
    rw [String.length] at h
    simp at h
    simp [h]

end Meme

/-- **C4.** `encodeMemeText` realises the memegen placeholder scheme with
underscore/dash escaping applied before special-character and space
substitution: the four documented round-trip examples hold, and so do the
whitespace-only cases. -/
theorem C4_encodeMemeText_contract :
    Meme.encodeMemeText "what? 100%" = "what~q_100~p" ∧
    Meme.encodeMemeText "" = "_" ∧
    Meme.encodeMemeText "file_name-v2.txt" = "file__name--v2.txt" ∧
    Meme.encodeMemeText "kebab-case" = "kebab--case" ∧
    Meme.encodeMemeText "   " = "_" ∧
    Meme.encodeMemeText "hello world" = "hello_world" ∧
    Meme.encodeMemeText "back\\slash" = "back~bslash" ∧
    Meme.encodeMemeText "hashtag#tag" = "hashtag~htag" ∧
    Meme.encodeMemeText "path/to/file" = "path~sto~sfile" := by
  refine ⟨?_, ?_, ?_, ?_, ?_, ?_, ?_, ?_, ?_⟩ <;> decide

/-- **C1.** For every non-empty query and every template the search
matches, the returned relevance equals the specification's formula (2 per
exact keyword match, 1 per partial keyword match, 0.5 per query term in
the usage text, divided by the number of keywords plus one), evaluated on
the keywords recorded by the matching loop; it is strictly positive, and
any matched template whose computed score is ≤ 0 is absent from the
results. -/
theorem C1_search_relevance_formula (meta : Meme.MetaTable) (terms : List String)
    (hne : terms ≠ []) :
    (∀ r ∈ Meme.searchByKeyword meta terms, 0 < r.relevance ∧
      ∃ kws md, (r.templateId, kws) ∈
          Meme.collectMatches (Meme.buildKeywordIndex meta) terms ∧
        Meme.alookup meta r.templateId = some md ∧
        r.relevance = Meme.specRelevanceFormula md kws terms) ∧
    (∀ tid kws, (tid, kws) ∈ Meme.collectMatches (Meme.buildKeywordIndex meta) terms →
      Meme.calculateRelevance meta tid kws terms ≤ 0 →
      ∀ r ∈ Meme.searchByKeyword meta terms, r.templateId ≠ tid) := by
  constructor
  · intro r hr
    obtain ⟨p, hp, hf⟩ := (Meme.mem_searchByKeyword_iff meta terms r).mp hr
    by_cases hpos : 0 < Meme.calculateRelevance meta p.1 p.2 terms
    · rw [if_pos hpos] at hf
      obtain rfl := Option.some_inj.mp hf
      refine ⟨hpos, p.2, ?_⟩
      cases halk : Meme.alookup meta p.1 with
      | none =>
        exfalso
        rw [Meme.calculateRelevance_of_no_metadata meta p.1 p.2 terms halk] at hpos
        exact lt_irrefl 0 hpos
      | some md =>
        exact ⟨md, by simpa using hp, rfl,
          Meme.calculateRelevance_eq_spec meta p.1 p.2 terms md halk⟩
    · rw [if_neg hpos] at hf
      cases hf
  · intro tid kws hmemk hle r hr
    obtain ⟨p, hp, hf⟩ := (Meme.mem_searchByKeyword_iff meta terms r).mp hr
    by_cases hpos : 0 < Meme.calculateRelevance meta p.1 p.2 terms
    · rw [if_pos hpos] at hf
      obtain rfl := Option.some_inj.mp hf
      intro htid
      have hptid : p.1 = tid := htid
      have hpeq : p = (tid, p.2) := by
        have h0 : p = (p.1, p.2) := rfl
        rw [hptid] at h0
        exact h0
      have hp' : (tid, p.2) ∈ Meme.collectMatches (Meme.buildKeywordIndex meta) terms := by
        rw [← hpeq]
        exact hp
      have hkws := Meme.assoc_mem_unique (Meme.nodup_keys_collectMatches _ _) hp' hmemk
      rw [hkws, hptid] at hpos
      exact absurd hle (not_le.mpr hpos)
    · rw [if_neg hpos] at hf
      cases hf

/-- Witness for C1: on the one-template table, the query term `cat`
matches template `t1` with relevance `3/2 > 0`, equal to the
specification formula. -/
theorem C1_search_relevance_formula_witness :
    0 < (⟨"t1", 3/2⟩ : Meme.SearchResult).relevance ∧
    ∃ kws md, ((⟨"t1", 3/2⟩ : Meme.SearchResult).templateId, kws) ∈
        Meme.collectMatches (Meme.buildKeywordIndex Meme.metaCat) ["cat"] ∧
      Meme.alookup Meme.metaCat (⟨"t1", 3/2⟩ : Meme.SearchResult).templateId = some md ∧
      (⟨"t1", 3/2⟩ : Meme.SearchResult).relevance =
        Meme.specRelevanceFormula md kws ["cat"] :=
  (C1_search_relevance_formula Meme.metaCat ["cat"] (by decide)).1 ⟨"t1", 3/2⟩
    (by
      have h : Meme.searchByKeyword Meme.metaCat ["cat"] =
          [⟨"t1", 3/2⟩] := by
        norm_num +decide [Meme.searchByKeyword, Meme.collectMatches, Meme.processTerm,
          Meme.processTermExact, Meme.fuzzyStep, Meme.pushMatch, Meme.buildKeywordIndex,
          Meme.addToIndex, Meme.alookup, Meme.metaCat, Meme.mdCat, Meme.calculateRelevance,
          Meme.includesStr, Meme.infixOfB, Meme.jsToLower, Meme.lowerChar, List.find?,
          List.filter, List.any, List.filterMap, List.insertionSort, List.orderedInsert,
          List.isPrefixOf]
      rw [h]
      exact List.mem_singleton.mpr rfl)

/-- **C3 counterexample.** The fuzzy pass does not fire when the query
term strictly contains the indexed keyword: with one template `t1`
indexed under keyword `cat`, the query term `cats` contains `cat` yet
nothing is matched and the search output is empty, contradicting the
claim's "or the term contains the keyword" direction. -/
theorem C3_fuzzy_counterexample :
    Meme.includesStr "cats" "cat" = true ∧ ("cats" : String) ≠ "cat" ∧
    Meme.alookup (Meme.buildKeywordIndex Meme.metaCat) "cat" = some ["t1"] ∧
    Meme.collectMatches (Meme.buildKeywordIndex Meme.metaCat) ["cats"] = [] ∧
    Meme.searchByKeyword Meme.metaCat ["cats"] = [] := by
  refine ⟨by decide, by decide, by decide, by decide, by decide⟩

/-- **C3 (amended).** In the fuzzy pass, for every query term and indexed
keyword, the keyword is recorded as a match for each template of its
bucket whenever the keyword contains the term as a strict superstring
(`keyword.includes(term)` and `keyword ≠ term`); a term that strictly
contains an indexed keyword does not fire the fuzzy pass. -/
theorem C3_fuzzy_keyword_contains_term (meta : Meme.MetaTable) (terms : List String)
    (term kw tid : String) (tids : List String)
    (hterm : term ∈ terms)
    (hbucket : (kw, tids) ∈ Meme.buildKeywordIndex meta)
    (htid : tid ∈ tids)
    (hinc : Meme.includesStr kw term = true)
    (hne : kw ≠ term) :
    Meme.HasMatch (Meme.collectMatches (Meme.buildKeywordIndex meta) terms) tid kw := by
  obtain ⟨ts1, ts2, rfl⟩ := List.append_of_mem hterm
  have hsplit : Meme.collectMatches (Meme.buildKeywordIndex meta) (ts1 ++ term :: ts2) =
      ts2.foldl (Meme.processTerm (Meme.buildKeywordIndex meta))
        (Meme.processTerm (Meme.buildKeywordIndex meta)
          (Meme.collectMatches (Meme.buildKeywordIndex meta) ts1) term) := by
    unfold Meme.collectMatches
    rw [List.foldl_append, List.foldl_cons]
  rw [hsplit]
  refine Meme.bucketExtends_preserves
    (Meme.alookup_collectMatches_suffix _ ts2 _ tid) ?_
  unfold Meme.processTerm
  obtain ⟨i1, i2, hidx⟩ := List.append_of_mem hbucket
  rw [hidx, List.foldl_append, List.foldl_cons]
  refine Meme.bucketExtends_preserves
    (Meme.bucketExtends_foldl _ tid i2
      (fun m p _ => Meme.alookup_fuzzyStep term tid m p) _) ?_
  show Meme.HasMatch (Meme.fuzzyStep term _ (kw, tids)) tid kw
  unfold Meme.fuzzyStep
  rw [if_pos (by simp [hinc, hne])]
  exact Meme.hasMatch_foldl_pushMatch tids tid kw htid _

/-- Witness for the amended C3: keyword `cat` strictly contains the query
term `at`, so template `t1` is matched via `cat`. -/
theorem C3_fuzzy_keyword_contains_term_witness :
    Meme.HasMatch (Meme.collectMatches (Meme.buildKeywordIndex Meme.metaCat) ["at"])
      "t1" "cat" :=
  C3_fuzzy_keyword_contains_term Meme.metaCat ["at"] "at" "cat" "t1" ["t1"]
    (by decide) (by decide) (by decide) (by decide) (by decide)

/-- **C7.** Appending a query term that is an exact match to some keyword
of template `T` never decreases the relevance the search assigns to `T`:
the matched-keyword bucket only grows and every summand of the relevance
formula is monotone, while the denominator is unchanged. -/
theorem C7_monotonicity (meta : Meme.MetaTable) (terms : List String) (t T : String)
    (hexact : ∃ md, Meme.alookup meta T = some md ∧ t ∈ md.keywords.map Meme.jsToLower) :
    Meme.assignedRelevance meta terms T ≤ Meme.assignedRelevance meta (terms ++ [t]) T := by
  unfold Meme.assignedRelevance
  rw [Meme.collectMatches_append]
  have hext := Meme.alookup_processTerm (Meme.buildKeywordIndex meta)
    (Meme.collectMatches (Meme.buildKeywordIndex meta) terms) t T
  cases hold : Meme.alookup (Meme.collectMatches (Meme.buildKeywordIndex meta) terms) T with
  | none =>
    cases hnew : Meme.alookup (Meme.processTerm (Meme.buildKeywordIndex meta)
        (Meme.collectMatches (Meme.buildKeywordIndex meta) terms) t) T with
    | none => simp
    | some kws => simpa using Meme.calculateRelevance_nonneg meta T kws (terms ++ [t])
  | some kws =>
    obtain ⟨ext, hnew⟩ := hext kws hold
    rw [hnew]
    simpa using Meme.calculateRelevance_mono meta T kws ext terms t

/-- Witness for C7: adding the exact keyword term `cat` to the query
`x` does not decrease template `t1`'s score. -/
theorem C7_monotonicity_witness :
    Meme.assignedRelevance Meme.metaCat ["x"] "t1" ≤
      Meme.assignedRelevance Meme.metaCat (["x"] ++ ["cat"]) "t1" :=
  C7_monotonicity Meme.metaCat ["x"] "cat" "t1" ⟨Meme.mdCat, by decide, by decide⟩

/-- **C2 counterexample.** On a three-word content whose (oracle-split)
single sentence equals its own trigram, the combined pool holds the
sentence candidate (score 7) first and the case-equal n-gram candidate
(score 3) second; the final result keeps the n-gram candidate — the LAST
occurrence wins, not the first, because the JS `Map` constructor
overwrites the value of a duplicate key. -/
theorem C2_first_occurrence_counterexample :
    Meme.allCandidatesOf Meme.constNlp Meme.args0 =
      [Meme.sentenceQuote, Meme.ngramQuote] ∧
    Meme.sentenceQuote.score = 7 ∧ Meme.ngramQuote.score = 3 ∧
    Meme.jsToLower Meme.sentenceQuote.text = Meme.jsToLower Meme.ngramQuote.text ∧
    Meme.sentenceQuote ≠ Meme.ngramQuote ∧
    (Meme.extractKeyQuotes Meme.constNlp Meme.args0).quotes = [Meme.ngramQuote] := by
  refine ⟨?_, by norm_num [Meme.sentenceQuote], by norm_num [Meme.ngramQuote], by decide,
    by norm_num [Meme.sentenceQuote, Meme.ngramQuote], ?_⟩ <;>
    norm_num +decide [Meme.extractKeyQuotes, Meme.uniqueQuotesOf, Meme.dedupByKey,
      Meme.insertEntry, Meme.allCandidatesOf, Meme.scoredSentencesOf, Meme.scoredNGramsOf,
      Meme.extractNGrams, Meme.scoreQuote, Meme.positionLabel, Meme.joinSep, Meme.splitWs,
      Meme.splitWsGo, Meme.constNlp, Meme.args0, Meme.jsToLower, Meme.lowerChar,
      Meme.includesStr, Meme.infixOfB, Meme.testWordRegex, Meme.testStartWordRegex,
      Meme.testStartsWith, Meme.hasWordAux, Meme.startsWithBoundary, Meme.isWordChar,
      Meme.emotionalWords, Meme.sentenceQuote, Meme.ngramQuote, List.enum, List.find?,
      List.filter, List.any, List.filterMap, List.insertionSort, List.orderedInsert,
      List.isPrefixOf, List.range, List.foldl]

/-- **C2 (amended).** When the combined candidate pool contains several
candidates whose texts are equal after lower-casing, exactly one copy
appears in the deduplicated list and in the final result — but it is the
LAST occurrence in the combined pool that wins (the n-gram candidate
overrides a case-equal sentence candidate), since the JS `Map`
construction overwrites duplicate keys. -/
theorem C2_dedup_last_occurrence (nlp : Meme.Nlp) (args : Meme.ExtractArgs) :
    (∀ q ∈ Meme.uniqueQuotesOf nlp args,
      ((Meme.allCandidatesOf nlp args).filter
        (fun c => Meme.jsToLower c.text = Meme.jsToLower q.text)).getLast? = some q) ∧
    List.Pairwise (fun a b => Meme.jsToLower a.text ≠ Meme.jsToLower b.text)
      (Meme.extractKeyQuotes nlp args).quotes := by
  constructor
  · intro q hq
    exact Meme.uniqueQuotes_getLast nlp args hq
  · have hp := Meme.uniqueQuotes_pairwise nlp args
    have hsort := ((List.perm_insertionSort Meme.quoteGe
        (Meme.uniqueQuotesOf nlp args)).pairwise_iff
        (fun h => Ne.symm h)).mpr hp
    exact List.Pairwise.sublist (List.take_sublist _ _) hsort

/-- Witness for the amended C2: for the concrete pool of the
counterexample input, the kept copy is the last pool occurrence. -/
theorem C2_dedup_last_occurrence_witness :
    ((Meme.allCandidatesOf Meme.constNlp Meme.args0).filter
      (fun c => Meme.jsToLower c.text = Meme.jsToLower Meme.ngramQuote.text)).getLast? =
      some Meme.ngramQuote :=
  (C2_dedup_last_occurrence Meme.constNlp Meme.args0).1 Meme.ngramQuote
    (by
      have h : Meme.uniqueQuotesOf Meme.constNlp Meme.args0 = [Meme.ngramQuote] := by
        norm_num +decide [Meme.uniqueQuotesOf, Meme.dedupByKey, Meme.insertEntry,
          Meme.allCandidatesOf, Meme.scoredSentencesOf, Meme.scoredNGramsOf,
          Meme.extractNGrams, Meme.scoreQuote, Meme.positionLabel, Meme.joinSep,
          Meme.splitWs, Meme.splitWsGo, Meme.constNlp, Meme.args0, Meme.jsToLower,
          Meme.lowerChar, Meme.includesStr, Meme.infixOfB, Meme.testWordRegex,
          Meme.testStartWordRegex, Meme.testStartsWith, Meme.hasWordAux,
          Meme.startsWithBoundary, Meme.isWordChar, Meme.emotionalWords, Meme.ngramQuote,
          List.enum, List.find?, List.filter, List.any, List.filterMap, List.range,
          List.foldl]
      rw [h]
      exact List.mem_singleton.mpr rfl)

/-- **C5.** Every quote returned by `extractKeyQuotes` has text length at
most `maxLength` and positive score (in particular, score > 0 or
n-gram-candidate membership); a sentence over `maxLength` never enters the
sentence candidate pool regardless of its other bonuses. -/
theorem C5_extract_length_filter (nlp : Meme.Nlp) (args : Meme.ExtractArgs) :
    (∀ q ∈ (Meme.extractKeyQuotes nlp args).quotes,
      q.text.length ≤ args.maxLength ∧
        (0 < q.score ∨ q ∈ Meme.scoredNGramsOf args)) ∧
    (∀ s ∈ Meme.scoredSentencesOf nlp args,
      s.text.length ≤ args.maxLength ∧ 0 < s.score) := by
  refine ⟨?_, Meme.scoredSentences_bounds nlp args⟩
  intro q hq
  have hq1 := Meme.quotes_subset_unique nlp args hq
  have hq2 := Meme.uniqueQuotes_subset nlp args hq1
  rcases List.mem_append.mp hq2 with h | h
  · obtain ⟨hl, hs⟩ := Meme.scoredSentences_bounds nlp args q h
    exact ⟨hl, Or.inl hs⟩
  · obtain ⟨hl, _⟩ := Meme.scoredNGrams_bounds args q h
    exact ⟨hl, Or.inr h⟩

/-- Witness for C5: the single returned quote of the concrete run has
length 16 ≤ 100 and positive score. -/
theorem C5_extract_length_filter_witness :
    Meme.ngramQuote.text.length ≤ Meme.args0.maxLength ∧
      (0 < Meme.ngramQuote.score ∨ Meme.ngramQuote ∈ Meme.scoredNGramsOf Meme.args0) :=
  (C5_extract_length_filter Meme.constNlp Meme.args0).1 Meme.ngramQuote
    (by
      have h : (Meme.extractKeyQuotes Meme.constNlp Meme.args0).quotes =
          [Meme.ngramQuote] := by
        norm_num +decide [Meme.extractKeyQuotes, Meme.uniqueQuotesOf, Meme.dedupByKey,
          Meme.insertEntry, Meme.allCandidatesOf, Meme.scoredSentencesOf,
          Meme.scoredNGramsOf, Meme.extractNGrams, Meme.scoreQuote, Meme.positionLabel,
          Meme.joinSep, Meme.splitWs, Meme.splitWsGo, Meme.constNlp, Meme.args0,
          Meme.jsToLower, Meme.lowerChar, Meme.includesStr, Meme.infixOfB,
          Meme.testWordRegex, Meme.testStartWordRegex, Meme.testStartsWith,
          Meme.hasWordAux, Meme.startsWithBoundary, Meme.isWordChar, Meme.emotionalWords,
          Meme.ngramQuote, List.enum, List.find?, List.filter, List.any, List.filterMap,
          List.insertionSort, List.orderedInsert, List.isPrefixOf, List.range, List.foldl]
      rw [h]
      exact List.mem_singleton.mpr rfl)

/-- **C6.** `suggestTemplates` returns at most `limit` suggestions for
every content and every `limit` in the declared range 1..10; the zod
schema defaults an omitted limit to 5 and rejects `limit = 0` and
`limit = 11` before any scoring. -/
theorem C6_suggest_limit (meta : Meme.MetaTable) (catalog : Meme.Catalog)
    (a : Meme.ContentAnalysis) (content : String) (limit : ℕ)
    (hc : content ≠ "") (h1 : 1 ≤ limit) (h2 : limit ≤ 10) :
    (Meme.suggestTemplates meta catalog a content limit).suggestions.length ≤ limit ∧
    Meme.parseSuggestArgs content none = Except.ok (content, 5) ∧
    Meme.parseSuggestArgs content (some 0) = Except.error "limit: out of range" ∧
    Meme.parseSuggestArgs content (some 11) = Except.error "limit: out of range" := by
  have hlen : ¬content.length < 1 := by
    rw [Nat.lt_one_iff]
    intro h0
    exact hc (Meme.string_eq_empty_of_length_zero h0)
  refine ⟨?_, ?_, ?_, ?_⟩
  · show ((Meme.topSuggestionsOf meta content a limit).map _).length ≤ limit
    rw [List.length_map]
    unfold Meme.topSuggestionsOf
    rw [List.length_take]
    exact min_le_left _ _
  · unfold Meme.parseSuggestArgs
    rw [if_neg hlen]
  · unfold Meme.parseSuggestArgs
    rw [if_neg hlen]
    norm_num
  · unfold Meme.parseSuggestArgs
    rw [if_neg hlen]
    norm_num

/-- Witness for C6 at a concrete table, content and limit. -/
theorem C6_suggest_limit_witness :
    (Meme.suggestTemplates Meme.metaCat catD Meme.analysis0 "cat" 5).suggestions.length ≤ 5 ∧
    Meme.parseSuggestArgs "cat" none = Except.ok ("cat", 5) ∧
    Meme.parseSuggestArgs "cat" (some 0) = Except.error "limit: out of range" ∧
    Meme.parseSuggestArgs "cat" (some 11) = Except.error "limit: out of range" :=
  C6_suggest_limit Meme.metaCat catD Meme.analysis0 "cat" 5 (by decide) (by decide) (by decide)

/-- **C8.** Every suggestion is formatted from a scored template with
strictly positive accumulated score (so templates with score ≤ 0 never
appear), and its confidence field is `high` exactly when the score is
≥ 5, `medium` exactly when 2 ≤ score < 5, and `low` exactly when
0 < score < 2. -/
theorem C8_confidence_buckets (meta : Meme.MetaTable) (catalog : Meme.Catalog)
    (a : Meme.ContentAnalysis) (content : String) (limit : ℕ) :
    (Meme.suggestTemplates meta catalog a content limit).suggestions =
      (Meme.topSuggestionsOf meta content a limit).map
        (Meme.formatSuggestion meta catalog) ∧
    ∀ s ∈ Meme.topSuggestionsOf meta content a limit,
      0 < s.score ∧
      ((Meme.formatSuggestion meta catalog s).confidence = Meme.Confidence.high ↔
        5 ≤ s.score) ∧
      ((Meme.formatSuggestion meta catalog s).confidence = Meme.Confidence.medium ↔
        2 ≤ s.score ∧ s.score < 5) ∧
      ((Meme.formatSuggestion meta catalog s).confidence = Meme.Confidence.low ↔
        0 < s.score ∧ s.score < 2) := by
  refine ⟨rfl, ?_⟩
  intro s hs
  have hpos : 0 < s.score := by
    unfold Meme.topSuggestionsOf at hs
    have hmem := (List.perm_insertionSort Meme.scoredGe _).mem_iff.mp
      (List.take_subset _ _ hs)
    have hcond := (List.mem_filter.mp hmem).2
    simpa using hcond
  have hconf : (Meme.formatSuggestion meta catalog s).confidence =
      Meme.confidenceOf s.score := rfl
  refine ⟨hpos, ?_, ?_, ?_⟩ <;> rw [hconf] <;> unfold Meme.confidenceOf
  · by_cases h5 : 5 ≤ s.score
    · rw [if_pos h5]
      exact ⟨fun _ => h5, fun _ => rfl⟩
    · rw [if_neg h5]
      constructor
      · intro h
        split at h <;> cases h
      · intro h
        exact absurd h h5
  · by_cases h5 : 5 ≤ s.score
    · rw [if_pos h5]
      constructor
      · intro h
        cases h
      · intro h
        exact absurd h.2 (not_lt.mpr h5)
    · rw [if_neg h5]
      by_cases h2 : 2 ≤ s.score
      · rw [if_pos h2]
        exact ⟨fun _ => ⟨h2, not_le.mp h5⟩, fun _ => rfl⟩
      · rw [if_neg h2]
        constructor
        · intro h
          cases h
        · intro h
          exact absurd h.1 h2
  · by_cases h5 : 5 ≤ s.score
    · rw [if_pos h5]
      constructor
      · intro h
        cases h
      · intro h
        exact absurd h.2 (not_lt.mpr (le_trans (by norm_num) h5))
    · rw [if_neg h5]
      by_cases h2 : 2 ≤ s.score
      · rw [if_pos h2]
        constructor
        · intro h
          cases h
        · intro h
          exact absurd h.2 (not_lt.mpr h2)
      · rw [if_neg h2]
        exact ⟨fun _ => ⟨hpos, not_le.mp h2⟩, fun _ => rfl⟩

/-- Witness for C8: the concrete scored template (score 3, from one
matched keyword at +3) is bucketed `medium`. -/
theorem C8_confidence_buckets_witness :
    0 < (⟨"t1", 3, ["Keywords matched: cat"]⟩ : Meme.ScoredTemplate).score ∧
    ((Meme.formatSuggestion Meme.metaCat catD
        (⟨"t1", 3, ["Keywords matched: cat"]⟩ : Meme.ScoredTemplate)).confidence =
      Meme.Confidence.high ↔ 5 ≤ (3 : ℚ)) ∧
    ((Meme.formatSuggestion Meme.metaCat catD
        (⟨"t1", 3, ["Keywords matched: cat"]⟩ : Meme.ScoredTemplate)).confidence =
      Meme.Confidence.medium ↔ 2 ≤ (3 : ℚ) ∧ (3 : ℚ) < 5) ∧
    ((Meme.formatSuggestion Meme.metaCat catD
        (⟨"t1", 3, ["Keywords matched: cat"]⟩ : Meme.ScoredTemplate)).confidence =
      Meme.Confidence.low ↔ 0 < (3 : ℚ) ∧ (3 : ℚ) < 2) :=
  (C8_confidence_buckets Meme.metaCat catD Meme.analysis0 "cat" 5).2
    ⟨"t1", 3, ["Keywords matched: cat"]⟩
    (by
      have h : Meme.topSuggestionsOf Meme.metaCat "cat" Meme.analysis0 5 =
          [⟨"t1", 3, ["Keywords matched: cat"]⟩] := by
        norm_num +decide [Meme.topSuggestionsOf, Meme.scoredAllOf, Meme.scoreTemplate,
          Meme.metaCat, Meme.mdCat, Meme.analysis0, Meme.alookup, Meme.jsToLower,
          Meme.lowerChar, Meme.includesStr, Meme.infixOfB, Meme.joinSep,
          Meme.testWordRegex, Meme.hasWordAux, Meme.startsWithBoundary, Meme.isWordChar,
          List.find?, List.filter, List.any, List.insertionSort, List.orderedInsert,
          List.isPrefixOf]
      rw [h]
      exact List.mem_singleton.mpr rfl)

/-- **C9.** The batch handler returns exactly one entry per input
configuration in input order; each entry records success (with url and
image) or failure (with an error message); and each entry is a function of
its own configuration alone, so a failing sibling never prevents another
configuration from being processed (splitting the batch around any element
splits the result around that element's entry). -/
theorem C9_batch_isolation (catalog : Meme.Catalog)
    (fetch : String → Except String String) (baseUrl : String)
    (memes : List Meme.MemeConfig)
    (h1 : 1 ≤ memes.length) (h10 : memes.length ≤ 10) :
    (Meme.handleGenerateMeme catalog fetch baseUrl memes).length = memes.length ∧
    (∀ i : ℕ, (Meme.handleGenerateMeme catalog fetch baseUrl memes)[i]? =
      (memes[i]?).map (Meme.batchEntry catalog fetch baseUrl)) ∧
    (∀ e ∈ Meme.handleGenerateMeme catalog fetch baseUrl memes,
      (e.success = true ∧ e.url.isSome ∧ e.base64Image.isSome ∧ e.error = none) ∨
      (e.success = false ∧ e.error.isSome ∧ e.url = none ∧ e.base64Image = none)) ∧
    (∀ pre post : List Meme.MemeConfig, ∀ m : Meme.MemeConfig,
      Meme.handleGenerateMeme catalog fetch baseUrl (pre ++ m :: post) =
        Meme.handleGenerateMeme catalog fetch baseUrl pre ++
          Meme.batchEntry catalog fetch baseUrl m ::
            Meme.handleGenerateMeme catalog fetch baseUrl post) := by
  refine ⟨List.length_map _ _, ?_, ?_, ?_⟩
  · intro i
    exact List.getElem?_map _ _ _
  · intro e he
    obtain ⟨m, _, hm⟩ := List.mem_map.mp he
    rw [← hm]
    unfold Meme.batchEntry
    cases Meme.generateSingleMeme catalog fetch baseUrl m.template m.text_lines with
    | ok r => left; exact ⟨rfl, rfl, rfl, rfl⟩
    | error e => right; exact ⟨rfl, rfl, rfl, rfl⟩
  · intro pre post m
    unfold Meme.handleGenerateMeme Meme.generateBatchMemes
    rw [List.map_append, List.map_cons]

/-- Witness for C9: on a concrete three-item batch (one valid config, one
unknown template, one slot mismatch) the result has three entries and the
entry at index 1 is the failure record of its own configuration. -/
theorem C9_batch_isolation_witness :
    (Meme.handleGenerateMeme catD fetchOk "https://api.memegen.link/images"
      memes3).length = memes3.length ∧
    (Meme.handleGenerateMeme catD fetchOk "https://api.memegen.link/images" memes3)[1]? =
      (memes3[1]?).map
        (Meme.batchEntry catD fetchOk "https://api.memegen.link/images") :=
  ⟨(C9_batch_isolation catD fetchOk "https://api.memegen.link/images" memes3
      (by decide) (by decide)).1,
   (C9_batch_isolation catD fetchOk "https://api.memegen.link/images" memes3
      (by decide) (by decide)).2.1 1⟩

/-- **C10.** `getTemplateDetails` is all-or-nothing: if any requested id
is missing from the catalog or the metadata table the call throws an error
naming every missing id (in request order) and returns no details at all;
if every id resolves, it returns exactly one record per requested id with
`count` equal to the number of requests. -/
theorem C10_details_all_or_nothing (catalog : Meme.Catalog) (meta : Meme.MetaTable)
    (templateIds : List String) (hne : templateIds ≠ []) :
    ((∃ tid ∈ templateIds, (Meme.detailsFor catalog meta tid).isNone) →
      Meme.getTemplateDetails catalog meta templateIds =
        Except.error ("Template(s) not found: " ++ Meme.joinSep ", "
          (templateIds.filter
            (fun tid => (Meme.detailsFor catalog meta tid).isNone)))) ∧
    ((∀ tid ∈ templateIds, (Meme.detailsFor catalog meta tid).isSome) →
      ∃ r, Meme.getTemplateDetails catalog meta templateIds = Except.ok r ∧
        r.templates.length = templateIds.length ∧
        r.count = templateIds.length) := by
  constructor
  · intro ⟨tid, htid, hnone⟩
    unfold Meme.getTemplateDetails
    rw [if_pos]
    refine List.ne_nil_of_mem (a := tid) ?_
    rw [List.mem_filter]
    exact ⟨htid, by simpa using hnone⟩
  · intro hall
    have hfilter : templateIds.filter
        (fun tid => (Meme.detailsFor catalog meta tid).isNone) = [] := by
      rw [List.filter_eq_nil_iff]
      intro tid htid
      have hs := hall tid htid
      cases hd : Meme.detailsFor catalog meta tid with
      | none =>
        rw [hd] at hs
        cases hs
      | some v => simp [hd]
    have hlen : (templateIds.filterMap (Meme.detailsFor catalog meta)).length =
        templateIds.length :=
      List.filterMap_length_eq_length.mpr hall
    have heq : Meme.getTemplateDetails catalog meta templateIds =
        Except.ok
          { templates := templateIds.filterMap (Meme.detailsFor catalog meta),
            count := (templateIds.filterMap (Meme.detailsFor catalog meta)).length } := by
      unfold Meme.getTemplateDetails
      rw [if_neg (fun h => h hfilter)]
    exact ⟨_, heq, hlen, hlen⟩

/-- Witness for C10: requesting the known id `t1` plus the unknown id `zz`
fails naming `zz`; and (in the same witness) a sibling application for the
all-found branch with just `t1` returns one record and count 1. -/
theorem C10_details_all_or_nothing_witness :
    Meme.getTemplateDetails catD Meme.metaCat ["t1", "zz"] =
      Except.error ("Template(s) not found: " ++ Meme.joinSep ", "
        ((["t1", "zz"] : List String).filter
          (fun tid => (Meme.detailsFor catD Meme.metaCat tid).isNone))) ∧
    ∃ r, Meme.getTemplateDetails catD Meme.metaCat ["t1"] = Except.ok r ∧
      r.templates.length = (["t1"] : List String).length ∧
      r.count = (["t1"] : List String).length :=
  ⟨(C10_details_all_or_nothing catD Meme.metaCat ["t1", "zz"] (by decide)).1
      ⟨"zz", by decide, by decide⟩,
   (C10_details_all_or_nothing catD Meme.metaCat ["t1"] (by decide)).2
      (by decide)⟩
